import Mathlib

/-!
# EmbeddedLinuxUpdates: the update server, the publisher client and the artifact creator

A shallow embedding of `Server.go`, `PublisherClient.go`,
`ArtifactCreator/ArtifactCreator.go` and `ArtifactCreator/ArtifactCryptoHelper.go`.

* The persisted tree below the storage directory `artifacts` is a value of type
  `Storage`: the entries found directly under `artifacts`, each a file or a
  directory of files.  The storage directory itself is taken to exist (the
  server's `main` runs `setup` before it serves a request, and `setup` creates
  it).
* The process-wide map `pendingUpdates` is a value of type `Index`.
* Go's machine integers are `Nat` / `Int` with the wrap-around written out.
* A handler is a function from the server state and the request to the new
  state and the `ResponseWriter` it leaves behind.
* A path that a device name builds is followed as the operating system
  follows it, through `/`, `.` and `..`; where it leaves the storage directory
  for a place the tree does not show, the environment `IOEnv` says where it
  ends.  The environment also decides which writes fail and what a failed
  write leaves behind.  The tree has no symbolic links, and the limits of the
  operating system on the length of a name are left out.
* A Go string that is used for its bytes (the URI of an artifact) is the list
  of its bytes; SHA-256, the RSA signature, the random source and AES-GCM are
  parameters of the artifact creator, gathered in `ArtifactEnv`.
-/

namespace EmbeddedLinuxUpdates

/-! ## Numbers and their decimal text -/

/-- Bytes of a file or of a request body, each below 256. -/
abbrev Bytes := List Nat

/-- Value of a run of decimal digits (most significant first); `none` when the
run is empty or holds a byte that is no decimal digit. -/
def parseDigits (cs : List Char) : Option Nat :=
  if cs.isEmpty then none
  else cs.foldl
    (fun acc c =>
      match acc with
      | none => none
      | some n => if c.isDigit then some (n * 10 + (c.toNat - 48)) else none)
    (some 0)

/-- Go's `strconv.ParseUint(s, 10, 32)`, as far as the callers use it: the value
and whether `err == nil`.  A syntax error gives value 0, a value that does not
fit 32 bits gives the largest 32-bit value; both report an error. -/
def ParseUint (s : String) : Nat × Bool :=
  match parseDigits s.data with
  | none => (0, false)
  | some n => if n < 2 ^ 32 then (n, true) else (2 ^ 32 - 1, false)

/-- The number a name parses to when `strconv.ParseUint(name, 10, 32)` reports
no error. -/
def parsesTo (s : String) : Option Nat :=
  if (ParseUint s).2 then some (ParseUint s).1 else none

/-- Go's `strconv.Atoi` on a platform whose `int` has 64 bits: an optional
sign, then decimal digits, the value within the range of `int`. -/
def Atoi (s : String) : Option Int :=
  match s.data with
  | [] => none
  | c :: rest =>
    if c = '-' then
      match parseDigits rest with
      | none => none
      | some n => if n ≤ 2 ^ 63 then some (-(n : Int)) else none
    else
      match parseDigits (if c = '+' then rest else c :: rest) with
      | none => none
      | some n => if n < 2 ^ 63 then some (n : Int) else none

/-- Go's conversion `uint32(x)` of an `int`. -/
def toUint32 (x : Int) : Nat := (x % (2 ^ 32 : Int)).toNat

/-- Text that `%d` prints for an unsigned number. -/
def fmtUint (n : Nat) : String := Nat.repr n

/-- Go's conversion `uint64(x)` of an `int64`. -/
def toUint64 (x : Int) : Nat := (x % (2 ^ 64 : Int)).toNat

/-- Go's conversion `int64(u)` of a `uint64`. -/
def toInt64 (u : Nat) : Int :=
  if u % 2 ^ 64 < 2 ^ 63 then ((u % 2 ^ 64 : Nat) : Int) else ((u % 2 ^ 64 : Nat) : Int) - 2 ^ 64

/-- The eight bytes `binary.LittleEndian.PutUint64` stores. -/
def PutUint64 (u : Nat) : Bytes :=
  (List.range 8).map (fun i => (u / 256 ^ i) % 256)

/-- The number `binary.LittleEndian.Uint64` reads from the first eight bytes;
`none` when there are fewer than eight (Go panics there). -/
def Uint64 (b : Bytes) : Option Nat :=
  if b.length < 8 then none
  else some (((b.take 8).reverse).foldl (fun acc x => acc * 256 + x % 256) 0)

/-! ## The persisted tree -/

/-- An entry directly under the storage directory: a file, or a directory and
the files in it. -/
inductive Node where
  | file (data : Bytes)
  | dir (files : List (String × Bytes))
deriving DecidableEq, Repr

/-- The entries directly under `artifacts`, by name. -/
abbrev Storage := List (String × Node)

/-- The value stored under a name in a directory listing. -/
def find {α : Type} (name : String) : List (String × α) → Option α
  | [] => none
  | (n, v) :: rest => if n = name then some v else find name rest

/-- The listing with `name` bound to `v`: the old binding replaced, or a new
one added. -/
def put {α : Type} (name : String) (v : α) : List (String × α) → List (String × α)
  | [] => [(name, v)]
  | (n, x) :: rest => if n = name then (n, v) :: rest else (n, x) :: put name v rest

/-- A name that denotes an entry of the directory it is appended to: not
empty, not `.` or `..`, without a `/` and without a NUL byte. -/
def plainName (n : String) : Bool :=
  !(n.data.isEmpty) && !(n.data == ['.']) && !(n.data == ['.', '.']) &&
    !(n.data.contains '/') && !(n.data.contains (Char.ofNat 0))

/-- The pieces of a path between its separators `/`, in order; `acc` holds the
piece being read, last byte first. -/
def splitSlash : List Char → List Char → List String
  | acc, [] => [String.mk acc.reverse]
  | acc, c :: cs =>
    if c = '/' then String.mk acc.reverse :: splitSlash [] cs
    else splitSlash (c :: acc) cs

/-- A directory that a path has reached: the directory `artifacts/dir`, the
storage directory `artifacts`, the working directory of the server (which
holds `artifacts`), or a directory further out, of which the tree shows
nothing. -/
inductive Place where
  | inDir (dir : String)
  | top
  | cwd
  | beyond
deriving DecidableEq, Repr

/-- Where a path ends: at a directory on the way that does not exist
(`ENOENT`); at a file on the way, or at a byte no path may hold (`ENOTDIR`,
`EINVAL`); at a directory; outside the storage directory; at the entry
`artifacts/name`; at the file `artifacts/dir/name`. -/
inductive Landing where
  | missing
  | blocked
  | directory
  | beyond
  | topFile (name : String)
  | dirFile (dir name : String)
deriving DecidableEq, Repr

/-- The directory that `..` leads to. -/
def Place.parent : Place → Place
  | Place.inDir _ => Place.top
  | Place.top => Place.cwd
  | Place.cwd => Place.beyond
  | Place.beyond => Place.beyond

/-- Where the last piece `c` of a path leads from the directory reached. -/
def finalAt : Place → String → Landing
  | Place.beyond, _ => Landing.beyond
  | Place.cwd, c =>
    if c = "" ∨ c = "." ∨ c = ".." ∨ c = "artifacts" then Landing.directory else Landing.beyond
  | Place.top, c =>
    if c = "" ∨ c = "." ∨ c = ".." then Landing.directory else Landing.topFile c
  | Place.inDir d, c =>
    if c = "" ∨ c = "." ∨ c = ".." then Landing.directory else Landing.dirFile d c

/-- The walk of the operating system along the pieces of a path, from the
directory `p`: an empty piece and `.` stay, `..` goes to the parent, a name
enters the directory of that name. -/
def follow (s : Storage) : Place → List String → Landing
  | _, [] => Landing.directory
  | p, [c] => finalAt p c
  | p, c :: c2 :: rest =>
    if c = "" ∨ c = "." then follow s p (c2 :: rest)
    else if c = ".." then follow s p.parent (c2 :: rest)
    else
      match p with
      | Place.inDir d =>
        -- the entries of an update directory are files
        match find d s with
        | some (Node.dir files) =>
          if (find c files).isSome then Landing.blocked else Landing.missing
        | _ => Landing.missing
      | Place.top =>
        match find c s with
        | some (Node.dir _) => follow s (Place.inDir c) (c2 :: rest)
        | some (Node.file _) => Landing.blocked
        | none => Landing.missing
      | Place.cwd => if c = "artifacts" then follow s Place.top (c2 :: rest) else Landing.beyond
      | Place.beyond => Landing.beyond

/-- Where the path `artifacts/dir/name` ends, `artifacts/dir` being a
directory. -/
def resolve (s : Storage) (dir name : String) : Landing :=
  if name.data.contains (Char.ofNat 0) then Landing.blocked
  else follow s (Place.inDir dir) (splitSlash [] name.data)

/-- The outcomes the operating system is free to choose.  `mkdirOk path`:
whether creating the directory goes through when no entry of that name is in
the way.  `writeOk path`: whether writing the file goes through when the path
can be opened.  `kept path`, for a write that does not go through: `none` when
the file is not opened and nothing changes, `some n` when the file is opened,
which empties it, and `n` bytes are written before the failure.  `beyond path`:
where a path ends that leaves the storage directory for a place the tree does
not show. -/
structure IOEnv where
  mkdirOk : String → Bool
  writeOk : String → Bool
  kept : String → Option Nat
  beyond : String → Landing

/-- The environment in which no operation fails for an outside reason, and a
path that leaves the storage directory stays outside. -/
def IOEnv.reliable : IOEnv :=
  ⟨fun _ => true, fun _ => true, fun _ => none, fun _ => Landing.beyond⟩

/-- Go's `os.Mkdir("artifacts/" + name)`: fails when an entry of that name
exists. -/
def Mkdir (env : IOEnv) (s : Storage) (name : String) : Option Storage :=
  match find name s with
  | some _ => none
  | none =>
    if plainName name && env.mkdirOk ("artifacts/" ++ name) then some (s ++ [(name, Node.dir [])])
    else none

/-- The tree after the file at `l` has been opened for writing (created, or
emptied when it is there) and `data` written to it; `none` when it cannot be
opened: a path that did not resolve, a directory, a name the environment gave
that is no name. -/
def writeAt (s : Storage) (l : Landing) (data : Bytes) : Option Storage :=
  match l with
  | Landing.topFile n =>
    match find n s with
    | some (Node.dir _) => none
    | _ => if plainName n then some (put n (Node.file data) s) else none
  | Landing.dirFile d n =>
    match find d s with
    | some (Node.dir files) =>
      if plainName n then some (put d (Node.dir (put n data files)) s) else none
    | _ => none
  | Landing.beyond => some s
  | _ => none

/-- Go's `ioutil.WriteFile("artifacts/" + dir + "/" + name, data)`: the new tree
and whether `err == nil`.  The path is followed through `/`, `.` and `..`; a
write that fails after the file was opened leaves the bytes written so far. -/
def WriteFile (env : IOEnv) (s : Storage) (dir name : String) (data : Bytes) : Storage × Bool :=
  match find dir s with
  | some (Node.dir _) =>
    let path := "artifacts/" ++ dir ++ "/" ++ name
    let l :=
      match resolve s dir name with
      | Landing.beyond => env.beyond path
      | l => l
    if env.writeOk path then
      match writeAt s l data with
      | some s1 => (s1, true)
      | none => (s, false)
    else
      match env.kept path with
      | none => (s, false)
      | some n => ((writeAt s l (data.take n)).getD s, false)
  | _ => (s, false)

/-- What reading a file gives. -/
inductive ReadResult where
  | data (b : Bytes)
  | notExist
  | otherError
deriving DecidableEq, Repr

/-- Go's `ioutil.ReadFile("artifacts/" + dir + "/" + name)`, the path followed
through `/`, `.` and `..`.  Reading a directory is an error other than
not-exist.  What a path reads that leaves the storage directory for a place
the tree does not show is not known; it is given as an error other than
not-exist. -/
def ReadFile (s : Storage) (dir name : String) : ReadResult :=
  match find dir s with
  | none => ReadResult.notExist
  | some (Node.file _) => ReadResult.otherError
  | some (Node.dir _) =>
    match resolve s dir name with
    | Landing.missing => ReadResult.notExist
    | Landing.dirFile d n =>
      match find d s with
      | some (Node.dir files) =>
        match find n files with
        | some b => ReadResult.data b
        | none => ReadResult.notExist
      | _ => ReadResult.notExist
    | Landing.topFile n =>
      match find n s with
      | some (Node.file b) => ReadResult.data b
      | some (Node.dir _) => ReadResult.otherError
      | none => ReadResult.notExist
    | _ => ReadResult.otherError

/-- Whether `os.Stat("artifacts/" + dir + "/" + name)` reports no error. -/
def fileExists (s : Storage) (dir name : String) : Bool :=
  match find dir s with
  | some (Node.dir files) => (find name files).isSome
  | _ => false

/-- Lexical order of two names, byte by byte as Go compares strings (the order
of the UTF-8 bytes is the order of the code points). -/
def lexLe : List Char → List Char → Bool
  | [], _ => true
  | _ :: _, [] => false
  | a :: as, b :: bs =>
    if a.toNat < b.toNat then true
    else if b.toNat < a.toNat then false
    else lexLe as bs

/-- Names in the order `filepath.Walk` visits a directory: lexical. -/
def walkOrder (names : List String) : List String :=
  names.insertionSort (fun a b => lexLe a.data b.data = true)

/-- Names of the entries directly under the storage directory. -/
def entryNames (s : Storage) : List String := s.map Prod.fst

/-- What `info.Name()` is at the paths the callback of `reserveID` does not
skip: the storage directory itself, then the entries directly under it. -/
def visitedNames (s : Storage) : List String :=
  "artifacts" :: walkOrder (entryNames s)

/-! ## `reserveID` -/

/-- The loop at the end of `reserveID`: `i` runs over the sorted numbers and
stops at the first index whose number differs from it; `newId` is the count of
indices passed. -/
def countPrefix : List Nat → Nat → Nat
  | [], i => i
  | x :: rest, i => if x ≠ i then i else countPrefix rest (i + 1)

/-- The numbers `reserveID` collects into `fileNames`. -/
def fileNames (s : Storage) : List Nat :=
  (visitedNames s).filterMap parsesTo

/-- The ID `reserveID` returns (its error is always `nil`).  The loop bound is
`uint32(len(fileNames))`. -/
def reserveID (s : Storage) : Nat :=
  let sorted := (fileNames s).insertionSort (fun a b => a ≤ b)
  countPrefix (sorted.take (sorted.length % 2 ^ 32)) 0

/-! ## `PrepareUpdateDirectory` and the `prepareUpdate` handler -/

/-- One device's wrapped key: the device identity, the ciphertext and the IV. -/
structure DecryptionKeyCiphertext where
  SAN : String
  CT : Bytes
  IV : Bytes
deriving DecidableEq, Repr

/-- The decoded body of a `prepareUpdate` request. -/
structure PrepareUpdateData where
  Keys : List DecryptionKeyCiphertext
  Available : Int
deriving DecidableEq, Repr

/-- The loop over `keyList` in `PrepareUpdateDirectory`: both files of a device
are written, the error of the first write is overwritten by that of the
second, and the loop returns at the first device whose second write failed.
The result is the tree and whether the loop ran to its end. -/
def writeKeys (env : IOEnv) (dir : String) :
    List DecryptionKeyCiphertext → Storage → Storage × Bool
  | [], s => (s, true)
  | c :: rest, s =>
    let s1 := (WriteFile env s dir c.SAN c.CT).1
    let r2 := WriteFile env s1 dir (c.SAN ++ "_iv") c.IV
    if r2.2 then writeKeys env dir rest r2.1 else (r2.1, false)

/-- The function `PrepareUpdateDirectory`: the tree it leaves and the ID it
returns, `none` when it returns an error. -/
def PrepareUpdateDirectory (env : IOEnv) (s : Storage)
    (keyList : List DecryptionKeyCiphertext) (available : Int) : Storage × Option Nat :=
  let newId := reserveID s
  match Mkdir env s (fmtUint newId) with
  | none => (s, none)
  | some s1 =>
    let r := writeKeys env (fmtUint newId) keyList s1
    if r.2 then
      let s3 := (WriteFile env r.1 (fmtUint newId) ("timestamp_" ++ fmtUint newId)
        (PutUint64 (toUint64 available))).1
      (s3, some newId)
    else (r.1, none)

/-! ## The response writer of `net/http` -/

/-- A piece of a response body, as the handler wrote it. -/
inductive Chunk where
  | text (s : String)
  | raw (b : Bytes)
  | jsonIds (ids : List Nat)
  | jsonKeyPair (ct iv : Bytes)
deriving DecidableEq, Repr

/-- The state of an `http.ResponseWriter`: the status code once the header has
been written, and the body written so far. -/
structure ResponseWriter where
  status : Option Nat
  body : List Chunk
deriving DecidableEq, Repr

/-- The writer a handler starts with. -/
def ResponseWriter.fresh : ResponseWriter := ⟨none, []⟩

/-- The method `WriteHeader`: sets the status code unless the header has been
written already (a second call is ignored). -/
def ResponseWriter.WriteHeader (w : ResponseWriter) (code : Nat) : ResponseWriter :=
  match w.status with
  | some _ => w
  | none => { w with status := some code }

/-- The method `Write`: the first write sends the header with status 200 when
`WriteHeader` has not been called. -/
def ResponseWriter.Write (w : ResponseWriter) (c : Chunk) : ResponseWriter :=
  let w1 := w.WriteHeader 200
  { w1 with body := w1.body ++ [c] }

/-- The status code the client receives: 200 when the handler returned without
writing the header. -/
def ResponseWriter.statusCode (w : ResponseWriter) : Nat := w.status.getD 200

/-! ## The pending-update index and `setup` -/

/-- An entry of the index: the update and its availability time. -/
structure PendingUpdate where
  UpdateId : Nat
  Timestamp : Int
deriving DecidableEq, Repr

/-- The map `pendingUpdates`, from device identity to its entries. -/
abbrev Index := List (String × List PendingUpdate)

/-- The entries of a device, `[]` (Go's `nil`) when the map has no such key. -/
def Index.get (idx : Index) (name : String) : List PendingUpdate :=
  (find name idx).getD []

/-- The call `sort.Slice(updates, ...)` of `setup`: descending by timestamp.
Go does not promise an order among entries of equal timestamp; here they keep
the order of the walk, and no statement below depends on that order. -/
def sortUpdates (l : List PendingUpdate) : List PendingUpdate :=
  l.insertionSort (fun a b => a.Timestamp ≥ b.Timestamp)

/-- How a run of `setup` ends: it returns `nil`, it returns an error, or it
panics (reading a timestamp of fewer than eight bytes). -/
inductive SetupEnd where
  | done
  | failed
  | panicked
deriving DecidableEq, Repr

/-- The callback of the walk in `setup` at the path `artifacts/X/Y`, where `X`
is a directory with the files `files` and `Y` one of them.  The result is the
index and `none` when the walk goes on, or how the walk ends. -/
def visit (X : String) (files : List (String × Bytes)) (Y : String) (idx : Index) :
    Index × Option SetupEnd :=
  -- the artifact `artifacts/X/X` has not been uploaded
  if (find X files).isNone then (idx, none)
  else if Y = X then (idx, none)
  else if !(ParseUint X).2 then (idx, some SetupEnd.failed)
  else
    let updateId := (ParseUint X).1
    -- `ivPath` is `artifacts/X/_iv`
    if Y = "_iv" then (idx, none)
    else if Y = "timestamp_" ++ fmtUint updateId then (idx, none)
    else
      match find ("timestamp_" ++ fmtUint updateId) files with
      | none => (idx, some SetupEnd.failed)
      | some rawTimestamp =>
        match Uint64 rawTimestamp with
        | none => (idx, some SetupEnd.panicked)
        | some u =>
          let update : PendingUpdate := ⟨updateId, toInt64 u⟩
          let idx1 := put Y (idx.get Y ++ [update]) idx
          (idx1.map (fun e => (e.1, sortUpdates e.2)), none)

/-- The walk through the files of one directory, in lexical order. -/
def visitFiles (X : String) (files : List (String × Bytes)) :
    List String → Index → Index × Option SetupEnd
  | [], idx => (idx, none)
  | Y :: rest, idx =>
    match visit X files Y idx with
    | (idx1, none) => visitFiles X files rest idx1
    | (idx1, some e) => (idx1, some e)

/-- The walk through the entries under the storage directory, in lexical
order; a file directly under it has no path with two separators below it. -/
def visitDirs (s : Storage) : List String → Index → Index × Option SetupEnd
  | [], idx => (idx, none)
  | X :: rest, idx =>
    match find X s with
    | some (Node.dir files) =>
      match visitFiles X files (walkOrder (files.map Prod.fst)) idx with
      | (idx1, none) => visitDirs s rest idx1
      | (idx1, some e) => (idx1, some e)
    | _ => visitDirs s rest idx

/-- The function `setup`: the index it leaves in `pendingUpdates` and how it
ends. -/
def setup (s : Storage) : Index × SetupEnd :=
  match visitDirs s (walkOrder (entryNames s)) [] with
  | (idx, none) => (idx, SetupEnd.done)
  | (idx, some e) => (idx, e)

/-! ## The handlers -/

/-- The state of the server process: the persisted tree and the index. -/
structure ServerState where
  fs : Storage
  pendingUpdates : Index
deriving DecidableEq, Repr

/-- What a handler leaves: the state, the response, and whether the handler
panicked (the server then drops the connection without a response). -/
structure Handled where
  state : ServerState
  w : ResponseWriter
  panicked : Bool
deriving DecidableEq, Repr

/-- The handler `PrepareUpdate`; `body` is the decoded request body, `none`
when it cannot be read or is not the JSON of `PrepareUpdateData`. -/
def PrepareUpdate (env : IOEnv) (st : ServerState) (body : Option PrepareUpdateData) :
    Handled :=
  let w := ResponseWriter.fresh
  match body with
  | none => ⟨st, w.WriteHeader 400, false⟩
  | some dat =>
    let r := PrepareUpdateDirectory env st.fs dat.Keys 0
    match r.2 with
    | none => ⟨{ st with fs := r.1 }, w.WriteHeader 503, false⟩
    | some newId => ⟨{ st with fs := r.1 }, w.Write (Chunk.text (fmtUint newId)), false⟩

/-- The handler `whatsNew`; `dnsNames` are the DNS names of the peer
certificate, `now` is `time.Now().Unix()`. -/
def whatsNew (idx : Index) (dnsNames : List String) (now : Int) : ResponseWriter :=
  let w := ResponseWriter.fresh
  match dnsNames with
  | [] => w.WriteHeader 403
  | deviceName :: _ =>
    match find deviceName idx with
    | none => w.WriteHeader 204
    | some updates =>
      let avUpdates := (updates.filter (fun upd => now > upd.Timestamp)).map (fun upd => upd.UpdateId)
      if avUpdates.length = 0 then w.WriteHeader 204
      else w.Write (Chunk.jsonIds avUpdates)

/-- The handler `uploadArtifact`; `param` is the first value of the query
parameter `updateId` (`none` when the query has none), `body` the request
body as `ioutil.ReadAll` returns it (a slice that is never `nil`, so the
branch `body == nil` is not taken). -/
def uploadArtifact (env : IOEnv) (st : ServerState) (param : Option String) (body : Bytes) :
    Handled :=
  let w := ResponseWriter.fresh
  match param with
  | none => ⟨st, w.WriteHeader 403, false⟩
  | some p =>
    if p.data.length < 1 then ⟨st, w.WriteHeader 403, false⟩
    else
      match Atoi p with
      | none => ⟨st, w.WriteHeader 400, false⟩
      | some sUpdateId =>
        let updateId := toUint32 sUpdateId
        -- no directory has been prepared for that ID
        if (find (fmtUint updateId) st.fs).isNone then ⟨st, w.WriteHeader 400, false⟩
        else if fileExists st.fs (fmtUint updateId) (fmtUint updateId) then
          -- the artifact already exists: the body is written before the header
          ⟨st, (w.Write (Chunk.text "File already exists")).WriteHeader 400, false⟩
        else
          let r := WriteFile env st.fs (fmtUint updateId) (fmtUint updateId) body
          if !r.2 then ⟨{ st with fs := r.1 }, w.WriteHeader 503, false⟩
          else
            let su := setup r.1
            ⟨⟨r.1, su.1⟩, w, su.2 != SetupEnd.done⟩

/-- Go's `copy(dst[:], src)` into a zeroed array of `n` bytes. -/
def copyInto (n : Nat) (src : Bytes) : Bytes :=
  src.take n ++ List.replicate (n - src.length) 0

/-- The handler `getDecryptionKey`. -/
def getDecryptionKey (st : ServerState) (param : Option String) (dnsNames : List String) :
    ResponseWriter :=
  let w := ResponseWriter.fresh
  match param with
  | none => w.WriteHeader 400
  | some p =>
    if p.data.length < 1 then w.WriteHeader 400
    else
      match Atoi p with
      | none => w.WriteHeader 400
      | some sUpdateId =>
        let updateId := toUint32 sUpdateId
        match dnsNames with
        | [] => w.WriteHeader 403
        | deviceName :: _ =>
          match ReadFile st.fs (fmtUint updateId) deviceName with
          | ReadResult.notExist => w.WriteHeader 404
          | ReadResult.otherError => w.WriteHeader 503
          | ReadResult.data key =>
            match ReadFile st.fs (fmtUint updateId) (deviceName ++ "_iv") with
            | ReadResult.notExist => w.WriteHeader 404
            | ReadResult.otherError => w.WriteHeader 503
            | ReadResult.data iv =>
              (w.WriteHeader 200).Write (Chunk.jsonKeyPair (copyInto 256 key) (copyInto 12 iv))

/-- The handler `getUpdate`. -/
def getUpdate (st : ServerState) (param : Option String) (dnsNames : List String) :
    ResponseWriter :=
  let w := ResponseWriter.fresh
  match param with
  | none => w.WriteHeader 400
  | some p =>
    if p.data.length < 1 then w.WriteHeader 400
    else
      match Atoi p with
      | none => w.WriteHeader 400
      | some sUpdateId =>
        let updateId := toUint32 sUpdateId
        match dnsNames with
        | [] => w.WriteHeader 403
        | deviceName :: _ =>
          let privileged := (st.pendingUpdates.get deviceName).any (fun u => u.UpdateId = updateId)
          if !privileged then w.WriteHeader 401
          else
            match ReadFile st.fs (fmtUint updateId) (fmtUint updateId) with
            | ReadResult.notExist => w.WriteHeader 404
            | ReadResult.otherError => w.WriteHeader 503
            | ReadResult.data artifact => (w.WriteHeader 200).Write (Chunk.raw artifact)

/-! ## The publisher client -/

/-- What the client's `httpClient.Do` gives for a request the server handled:
the status code, or `none` (an error) when the handler panicked and the
connection was dropped. -/
def Handled.answer (h : Handled) : Option Nat :=
  if h.panicked then none else some h.w.statusCode

/-- The method `PublisherClient.UploadArtifact`: `true` when it returns `nil`.
`artifact` is what reading the artifact file gives (`none` for an error), and
`send` the round trip of the request with the query parameter `updateId` and
the body, `none` for a transport error. -/
def UploadArtifact (artifact : Option Bytes) (send : String → Bytes → Option Nat)
    (updateId : Nat) : Bool :=
  match artifact with
  | none => false
  | some bytes =>
    match send (fmtUint updateId) bytes with
    | none => false
    | some statusCode => if statusCode ≠ 204 then false else true

/-- The method `PublisherClient.SendPrepareUpdateMessage`: the ID it returns
and whether its error is `nil`.  `resp` is `none` when the round trip gives no
response, `some none` when the body cannot be read, else the body. -/
def SendPrepareUpdateMessage (resp : Option (Option String)) : Nat × Bool :=
  match resp with
  | none => (0, false)
  | some none => (0, false)
  | some (some body) => ((ParseUint body).1 % 2 ^ 32, (ParseUint body).2)

/-- A call the publisher's `main` makes on its client. -/
inductive Call where
  | prepare (keys : List DecryptionKeyCiphertext) (available : Int)
  | upload (updateId : Nat)
  | saveCiphertexts
deriving DecidableEq, Repr

/-- The calls of the publisher's `main`, in order.  `clientOk` and `getOk` say
whether the client was created and whether the first request went through,
`m` is the result of `EncryptWithDirectory`, `av` the parsed flag `available`
(`main` ends early when one of them fails), `resp` the answer to the prepare
request. -/
def publisherMain (clientOk getOk : Bool) (m : Option (List DecryptionKeyCiphertext))
    (av : Option Int) (resp : Option (Option String)) : List Call :=
  if !clientOk then []
  else if !getOk then []
  else
    match m with
    | none => []
    | some keys =>
      match av with
      | none => []
      | some a =>
        let r := SendPrepareUpdateMessage resp
        -- the error of the prepare call is not looked at
        [Call.prepare keys a, Call.upload r.1, Call.saveCiphertexts]

/-! ## The artifact creator -/

/-- Go's conversion `uint16(n)` of an `int`. -/
def toUint16 (n : Nat) : Nat := n % 2 ^ 16

/-- The two bytes `binary.LittleEndian.PutUint16` stores. -/
def PutUint16 (u : Nat) : Bytes := [u % 256, (u / 256) % 256]

/-- The number `binary.LittleEndian.Uint16` reads from the first two bytes;
`none` when there are fewer than two. -/
def Uint16 (b : Bytes) : Option Nat :=
  match b with
  | b0 :: b1 :: _ => some (b0 % 256 + 256 * (b1 % 256))
  | _ => none

/-- The zero value of a byte array of length `n`. -/
def zeroBytes (n : Nat) : Bytes := List.replicate n 0

/-- The struct `UpdateHeader`; the arrays are the lists of their bytes. -/
structure UpdateHeader where
  SequenceNumber : Bytes
  HardwareUUID : Bytes
  URILength : Bytes
  URIData : Bytes
  Signature : Bytes
deriving DecidableEq, Repr

/-- The struct `UpdateArtifact`. -/
structure UpdateArtifact where
  Header : UpdateHeader
  PayloadPath : String
deriving DecidableEq, Repr

/-- What opening and reading the firmware image gives. -/
inductive ImageRead where
  | openFails
  | readFails
  | content (b : Bytes)
deriving DecidableEq, Repr

/-- The library functions and the files the artifact creator depends on: the
firmware image at a path, the SHA-256 function, the signature of a digest
under the key at a path (`none` when the key cannot be loaded or signing
fails), the random key and nonce (`none` when the random source fails), the
payload file at a path, and AES-GCM sealing of a plaintext under a key and a
nonce. -/
structure ArtifactEnv where
  image : String → ImageRead
  sha256 : Bytes → Bytes
  sign : String → Bytes → Option Bytes
  randomKey : Option Bytes
  randomNonce : Option Bytes
  readPayload : String → Option Bytes
  gcmSeal : Bytes → Bytes → Bytes → Bytes

/-- The method `CalcSHA256ArtifactDigest`: the digest over the header fields
and the image, read in chunks; `none` when reading the image fails. -/
def UpdateHeader.CalcSHA256ArtifactDigest (env : ArtifactEnv) (header : UpdateHeader)
    (file : ImageRead) : Option Bytes :=
  match file with
  | ImageRead.content b =>
    some (copyInto 32 (env.sha256
      (header.SequenceNumber ++ header.HardwareUUID ++ header.URILength ++ header.URIData ++ b)))
  | _ => none

/-- The function `CreateArtifact`: the artifact it returns (`none` for `nil`)
and whether its error is `nil`.  The string `URI` is the list of its bytes. -/
def CreateArtifact (env : ArtifactEnv) (sequenceNumber : Nat) (hardwareUUID : Bytes)
    (fwImagePath : String) (URI : Bytes) (sigKeyPath : String) : Option UpdateArtifact × Bool :=
  if fwImagePath = "" then (none, false)
  else if sigKeyPath = "" then (none, false)
  else
    let sequenceBuff := PutUint64 sequenceNumber
    let ulBuff := PutUint16 (toUint16 URI.length)
    let header : UpdateHeader :=
      if URI = [] then ⟨sequenceBuff, hardwareUUID, ulBuff, [], zeroBytes 256⟩
      else ⟨sequenceBuff, hardwareUUID, ulBuff, URI, zeroBytes 256⟩
    match env.image fwImagePath with
    | ImageRead.openFails => (none, false)
    | image =>
      match header.CalcSHA256ArtifactDigest env image with
      | none => (none, false)
      | some digest =>
        -- `AddRSASignature`; the artifact is returned also when it fails
        match env.sign sigKeyPath digest with
        | none => (some ⟨header, fwImagePath⟩, false)
        | some sig => (some ⟨{ header with Signature := copyInto 256 sig }, fwImagePath⟩, true)

/-- The function `EncryptArtifact`: ciphertext, nonce and key, `none` when it
returns an error.  (`AESKeyPath` is not used by the function.) -/
def EncryptArtifact (env : ArtifactEnv) (_AESKeyPath : String) (artifact : UpdateArtifact) :
    Option (Bytes × Bytes × Bytes) :=
  match env.randomKey with
  | none => none
  | some key =>
    match env.randomNonce with
    | none => none
    | some nonce =>
      match env.readPayload artifact.PayloadPath with
      | none => none
      | some fwImageBytes =>
        let artifactBlob := artifact.Header.Signature ++ artifact.Header.SequenceNumber ++
          artifact.Header.HardwareUUID ++ artifact.Header.URILength ++
          artifact.Header.URIData ++ fwImageBytes
        some (env.gcmSeal key nonce artifactBlob, nonce, key)

/-- What `EncryptAndSerialize` leaves: the slice it returns (`none` for `nil`),
whether its error is `nil`, and the files it has written. -/
structure Serialized where
  cipherText : Option Bytes
  ok : Bool
  written : List (String × Bytes)
deriving DecidableEq, Repr

/-- The method `EncryptAndSerialize`.  `dirExists` says whether the output
directory is there; `io` decides whether creating it and whether each of the
three writes succeeds. -/
def UpdateArtifact.EncryptAndSerialize (env : ArtifactEnv) (io : IOEnv) (dirExists : Bool)
    (artifact : UpdateArtifact) (AESKeyPath outDirPath : String) : Serialized :=
  match EncryptArtifact env AESKeyPath artifact with
  | none => ⟨none, false, []⟩
  | some (cipherText, nonce, key) =>
    if !dirExists && !io.mkdirOk outDirPath then ⟨none, false, []⟩
    else
      let artifactOut := outDirPath ++ "/artifact.upd"
      let ivOut := outDirPath ++ "/iv"
      let keyOut := outDirPath ++ "/key"
      -- each error is overwritten by the next; the last one is returned
      let err1 := io.writeOk artifactOut
      let err2 := io.writeOk ivOut
      let err3 := io.writeOk keyOut
      ⟨some cipherText, err3,
        (if err1 then [(artifactOut, cipherText)] else []) ++
        (if err2 then [(ivOut, nonce)] else []) ++
        (if err3 then [(keyOut, key)] else [])⟩

/-! ## Predicates and sample inputs used in the statements -/

/-- The number `n` is the smallest one no entry name of `s` parses to. -/
def SmallestFree (s : Storage) (n : Nat) : Prop :=
  (∀ name ∈ entryNames s, parsesTo name ≠ some n) ∧
    ∀ m, m < n → ∃ name ∈ entryNames s, parsesTo name = some m

/-- The entry `name` under the storage directory is a directory. -/
def IsDir (s : Storage) (name : String) : Prop :=
  ∃ files, find name s = some (Node.dir files)

/-- The storage directory holding empty directories of the given names. -/
def emptyDirs (names : List String) : Storage :=
  names.map (fun n => (n, Node.dir []))

/-- The wrapped key of the device `dev`. -/
def devKey : DecryptionKeyCiphertext := ⟨"dev", [1, 2, 3], [9, 9]⟩

/-- The server right after start-up over an empty storage directory. -/
def freshServer : ServerState := ⟨[], []⟩

/-- The server after a `prepareUpdate` request for the one device `dev` with
`available = 1700000000`. -/
def afterPrepare : Handled :=
  PrepareUpdate IOEnv.reliable freshServer (some ⟨[devKey], 1700000000⟩)

/-- The server after the artifact `[7, 7, 7]` has then been uploaded for
update 0. -/
def afterUpload : Handled :=
  uploadArtifact IOEnv.reliable afterPrepare.state (some "0") [7, 7, 7]

/-- The server after a second upload, of `[8]`, for update 0. -/
def afterSecondUpload : Handled :=
  uploadArtifact IOEnv.reliable afterUpload.state (some "0") [8]

/-- The server after a `prepareUpdate` request for the two devices `a` and
`a_iv_iv` and the upload of `[7, 7, 7]` for update 0. -/
def afterUploadForTwo : Handled :=
  uploadArtifact IOEnv.reliable
    (PrepareUpdate IOEnv.reliable freshServer
      (some ⟨[⟨"a", [1, 2, 3], [9, 9]⟩, ⟨"a_iv_iv", [4, 5, 6], [9, 9]⟩], 0⟩)).state
    (some "0") [7, 7, 7]

/-- An environment in which exactly the write of `artifacts/0/dev` fails, the
file not being opened. -/
def keyWriteFails : IOEnv :=
  { IOEnv.reliable with writeOk := fun p => p != "artifacts/0/dev" }

/-- An environment in which exactly the write of `artifacts/0/timestamp_0`
fails, the file not being opened. -/
def timestampWriteFails : IOEnv :=
  { IOEnv.reliable with writeOk := fun p => p != "artifacts/0/timestamp_0" }

/-- The IDs `whatsNew` is said to return: those of the device's entries whose
availability time is not after `now`. -/
def idsNotAfter (idx : Index) (deviceName : String) (now : Int) : List Nat :=
  ((idx.get deviceName).filter (fun u => u.Timestamp ≤ now)).map (fun u => u.UpdateId)

/-- The IDs of the device's entries whose availability time is before `now`. -/
def idsBefore (idx : Index) (deviceName : String) (now : Int) : List Nat :=
  ((idx.get deviceName).filter (fun u => u.Timestamp < now)).map (fun u => u.UpdateId)

/-- The response that carries the IDs `ids`: no content (204) for none, else
the JSON list with status 200. -/
def idsResponse (ids : List Nat) : ResponseWriter :=
  if ids = [] then ⟨some 204, []⟩ else ⟨some 200, [Chunk.jsonIds ids]⟩

/-- The upload handler reaches its write and the write succeeds: the request
names update `k`, the directory of `k` exists, it has no artifact yet. -/
def Stores (env : IOEnv) (st : ServerState) (p : String) (k : Nat) (body : Bytes) : Prop :=
  1 ≤ p.data.length ∧ (Atoi p).map toUint32 = some k ∧ (find (fmtUint k) st.fs).isSome = true ∧
    fileExists st.fs (fmtUint k) (fmtUint k) = false ∧
      (WriteFile env st.fs (fmtUint k) (fmtUint k) body).2 = true

/-- The upload handler turns the request down: the request names update `k`,
and `k` has no directory or has an artifact already. -/
def TurnedDown (st : ServerState) (p : String) (k : Nat) : Prop :=
  (Atoi p).map toUint32 = some k ∧
    ((find (fmtUint k) st.fs).isSome = false ∨ fileExists st.fs (fmtUint k) (fmtUint k) = true)

/-- The invariant of a header: its length field, read as a 16-bit
little-endian number, is the number of bytes of its URI data. -/
def UpdateHeader.LengthMatches (h : UpdateHeader) : Prop :=
  Uint16 h.URILength = some h.URIData.length

/-- A URI of 65536 bytes. -/
def longURI : Bytes := List.replicate 65536 97

/-- An environment in which the image `fw.img` holds `[1, 2, 3]`, and hashing,
signing, the random source and sealing give fixed bytes. -/
def sampleArtifactEnv : ArtifactEnv :=
  { image := fun _ => ImageRead.content [1, 2, 3]
    sha256 := fun _ => [5, 5]
    sign := fun _ _ => some [6, 6]
    randomKey := some [1, 1]
    randomNonce := some [2, 2]
    readPayload := fun _ => some [1, 2, 3]
    gcmSeal := fun _ _ plain => plain }

/-- An artifact with a short header, as input of `EncryptAndSerialize`. -/
def sampleArtifact : UpdateArtifact :=
  ⟨⟨[1], [2], [3, 0], [4, 4, 4], [5]⟩, "fw.img"⟩

/-- An environment in which exactly the write of `out/artifact.upd` fails. -/
def artifactWriteFails : IOEnv :=
  { IOEnv.reliable with writeOk := fun p => p != "out/artifact.upd" }

/-- An environment in which exactly the write of `out/iv` fails. -/
def ivWriteFails : IOEnv :=
  { IOEnv.reliable with writeOk := fun p => p != "out/iv" }

/-- An environment in which exactly the write of `out/key` fails. -/
def outKeyWriteFails : IOEnv :=
  { IOEnv.reliable with writeOk := fun p => p != "out/key" }

/-! # Theorems -/

/-! ## Listings -/

theorem find_put_self {α : Type} (name : String) (v : α) (l : List (String × α)) :
    find name (put name v l) = some v := by
  induction l with
  | nil => simp [put, find]
  | cons e rest ih =>
    obtain ⟨n, x⟩ := e
    by_cases h : n = name
    · simp [put, find, h]
    · simp [put, find, h, ih]

theorem find_put_ne {α : Type} (name other : String) (v : α) (l : List (String × α))
    (h : other ≠ name) : find other (put name v l) = find other l := by
  induction l with
  | nil => simp [put, find, h.symm]
  | cons e rest ih =>
    obtain ⟨n, x⟩ := e
    by_cases hn : n = name
    · subst hn
      simp [put, find, h.symm]
    · by_cases ho : n = other
      · subst ho
        simp [put, find, hn]
      · simp [put, find, hn, ho, ih]

theorem find_append_new {α : Type} (name : String) (v : α) (l : List (String × α))
    (h : find name l = none) : find name (l ++ [(name, v)]) = some v := by
  induction l with
  | nil => simp [find]
  | cons e rest ih =>
    obtain ⟨n, x⟩ := e
    by_cases hn : n = name
    · simp [find, hn] at h
    · simp only [find, hn, if_false] at h
      simp [find, hn, ih h]

theorem find_append_old {α : Type} (name other : String) (v : α) (l : List (String × α))
    (h : other ≠ name) : find other (l ++ [(name, v)]) = find other l := by
  induction l with
  | nil => simp [find, h.symm]
  | cons e rest ih =>
    obtain ⟨n, x⟩ := e
    by_cases hn : n = other
    · simp [find, hn]
    · simp [find, hn, ih]

/-! ## Decimal text -/

theorem digitChar_isDigit (d : Nat) (h : d < 10) :
    (Nat.digitChar d).isDigit = true ∧ (Nat.digitChar d).toNat - 48 = d := by
  interval_cases d <;> decide

theorem toDigitsCore_eq (n : Nat) :
    ∀ fuel ds, n < fuel →
      Nat.toDigitsCore 10 fuel n ds =
        (if n < 10 then [Nat.digitChar n]
          else Nat.toDigits 10 (n / 10) ++ [Nat.digitChar (n % 10)]) ++ ds := by
  induction n using Nat.strong_induction_on with
  | _ n ih =>
    intro fuel ds hfuel
    cases fuel with
    | zero => omega
    | succ f =>
      rw [Nat.toDigitsCore]
      by_cases h0 : n / 10 = 0
      · have hlt : n < 10 := by omega
        have hmod : n % 10 = n := Nat.mod_eq_of_lt hlt
        simp [h0, hlt, hmod]
      · have hge : ¬ n < 10 := by omega
        have hlt : n / 10 < n := by omega
        simp only [h0, if_false, hge]
        rw [ih (n / 10) hlt f _ (by omega)]
        have h2 : Nat.toDigits 10 (n / 10) = (if n / 10 < 10 then [Nat.digitChar (n / 10)]
            else Nat.toDigits 10 (n / 10 / 10) ++ [Nat.digitChar (n / 10 % 10)]) := by
          have := ih (n / 10) hlt (n / 10 + 1) [] (by omega)
          simpa [Nat.toDigits] using this
        rw [← h2]
        simp

theorem toDigits_step (n : Nat) :
    Nat.toDigits 10 n =
      if n < 10 then [Nat.digitChar n]
      else Nat.toDigits 10 (n / 10) ++ [Nat.digitChar (n % 10)] := by
  have := toDigitsCore_eq n (n + 1) [] (by omega)
  simpa [Nat.toDigits] using this


theorem toDigits_ne_nil (n : Nat) : Nat.toDigits 10 n ≠ [] := by
  rw [toDigits_step]
  split <;> simp

theorem toDigits_all_digits (n : Nat) : ∀ c ∈ Nat.toDigits 10 n, c.isDigit = true := by
  induction n using Nat.strong_induction_on with
  | _ n ih =>
    intro c hc
    rw [toDigits_step] at hc
    split at hc
    · rename_i hlt
      simp only [List.mem_singleton] at hc
      subst hc
      exact (digitChar_isDigit n hlt).1
    · rename_i hge
      rcases List.mem_append.1 hc with h | h
      · exact ih (n / 10) (by omega) c h
      · simp only [List.mem_singleton] at h
        subst h
        exact (digitChar_isDigit (n % 10) (Nat.mod_lt _ (by decide))).1

theorem foldl_toDigits (n : Nat) :
    (Nat.toDigits 10 n).foldl
      (fun acc c =>
        match acc with
        | none => none
        | some n => if c.isDigit then some (n * 10 + (c.toNat - 48)) else none)
      (some 0) = some n := by
  induction n using Nat.strong_induction_on with
  | _ n ih =>
    rw [toDigits_step]
    split
    · rename_i hlt
      have hd := digitChar_isDigit n hlt
      simp [hd.1, hd.2]
    · rename_i hge
      have hd := digitChar_isDigit (n % 10) (Nat.mod_lt _ (by decide))
      rw [List.foldl_append, ih (n / 10) (by omega)]
      simp only [List.foldl_cons, List.foldl_nil, hd.1, hd.2, if_true]
      congr 1
      omega

theorem parseDigits_toDigits (n : Nat) : parseDigits (Nat.toDigits 10 n) = some n := by
  unfold parseDigits
  have hne := toDigits_ne_nil n
  have hempty : (Nat.toDigits 10 n).isEmpty = false := by
    cases h : Nat.toDigits 10 n with
    | nil => exact absurd h hne
    | cons a l => rfl
  simp only [hempty, Bool.false_eq_true, if_false]
  exact foldl_toDigits n

theorem fmtUint_data (n : Nat) : (fmtUint n).data = Nat.toDigits 10 n := rfl

theorem parsesTo_fmtUint (k : Nat) (hk : k < 2 ^ 32) : parsesTo (fmtUint k) = some k := by
  unfold parsesTo ParseUint
  rw [fmtUint_data, parseDigits_toDigits]
  simp only [if_pos hk, if_true]

theorem fmtUint_injective (a b : Nat) (h : fmtUint a = fmtUint b) : a = b := by
  have ha := parseDigits_toDigits a
  rw [← fmtUint_data, h, fmtUint_data, parseDigits_toDigits] at ha
  exact (Option.some.inj ha).symm

theorem plainName_of_head (n : String) (c : Char) (rest : List Char)
    (hd : n.data = c :: rest) (hc : c ≠ '.') (hs : '/' ∉ n.data)
    (h0 : Char.ofNat 0 ∉ n.data) : plainName n = true := by
  unfold plainName
  have hslash : n.data.contains '/' = false := by simp [hs]
  have hnul : n.data.contains (Char.ofNat 0) = false := by simp [h0]
  rw [hslash, hnul, hd]
  simp [hc]

theorem plainName_fmtUint (k : Nat) : plainName (fmtUint k) = true := by
  have hall := toDigits_all_digits k
  have hne := toDigits_ne_nil k
  cases hd : Nat.toDigits 10 k with
  | nil => exact absurd hd hne
  | cons c rest =>
    have hdata : (fmtUint k).data = c :: rest := by rw [fmtUint_data, hd]
    refine plainName_of_head _ c rest hdata ?_ ?_ ?_
    · intro hdot
      have := hall c (by rw [hd]; exact List.mem_cons_self _ _)
      rw [hdot] at this
      exact absurd this (by decide)
    · rw [fmtUint_data]
      exact fun h => absurd (hall _ h) (by decide)
    · rw [fmtUint_data]
      exact fun h => absurd (hall _ h) (by decide)

theorem plainName_timestamp (k : Nat) : plainName ("timestamp_" ++ fmtUint k) = true := by
  have hall := toDigits_all_digits k
  have hdata : ("timestamp_" ++ fmtUint k).data
      = 't' :: ("imestamp_".data ++ Nat.toDigits 10 k) := by
    rw [String.data_append, fmtUint_data]
    rfl
  refine plainName_of_head _ _ _ hdata (by decide) ?_ ?_
  · rw [hdata]
    intro hcon
    rcases List.mem_cons.1 hcon with h | h
    · exact absurd h (by decide)
    · rcases List.mem_append.1 h with h | h
      · exact absurd h (by decide)
      · exact absurd (hall _ h) (by decide)
  · rw [hdata]
    intro hcon
    rcases List.mem_cons.1 hcon with h | h
    · exact absurd h (by decide)
    · rcases List.mem_append.1 h with h | h
      · exact absurd h (by decide)
      · exact absurd (hall _ h) (by decide)

/-! ## `reserveID` -/

theorem countPrefix_spec (xs : List Nat) :
    ∀ i, xs.Sorted (· < ·) → (∀ x ∈ xs, i ≤ x) →
      i ≤ countPrefix xs i ∧ countPrefix xs i ∉ xs ∧
        ∀ m, i ≤ m → m < countPrefix xs i → m ∈ xs := by
  induction xs with
  | nil =>
    intro i _ _
    refine ⟨le_refl _, List.not_mem_nil _, ?_⟩
    intro m h1 h2
    simp only [countPrefix] at h2
    omega
  | cons x rest ih =>
    intro i hs hlow
    have hx : i ≤ x := hlow x (List.mem_cons_self _ _)
    have hrest : ∀ y ∈ rest, x < y := List.rel_of_sorted_cons hs
    by_cases hxi : x = i
    · subst hxi
      have h := ih (x + 1) hs.of_cons (fun y hy => hrest y hy)
      simp only [countPrefix, ne_eq, not_true_eq_false, if_false]
      refine ⟨by omega, ?_, ?_⟩
      · intro hmem
        rcases List.mem_cons.1 hmem with h1 | h1
        · omega
        · exact h.2.1 h1
      · intro m hm1 hm2
        by_cases hmx : m = x
        · subst hmx; exact List.mem_cons_self _ _
        · exact List.mem_cons_of_mem _ (h.2.2 m (by omega) hm2)
    · simp only [countPrefix, ne_eq, hxi, not_false_eq_true, if_true]
      refine ⟨le_refl _, ?_, ?_⟩
      · intro hmem
        rcases List.mem_cons.1 hmem with h1 | h1
        · exact hxi h1.symm
        · have := hrest i h1; omega
      · intro m h1 h2; omega

theorem mem_walkOrder (names : List String) (n : String) :
    n ∈ walkOrder names ↔ n ∈ names := by
  unfold walkOrder
  exact (List.perm_insertionSort _ names).mem_iff

theorem mem_fileNames (s : Storage) (n : Nat) :
    n ∈ fileNames s ↔ ∃ name ∈ entryNames s, parsesTo name = some n := by
  unfold fileNames visitedNames
  rw [List.mem_filterMap]
  constructor
  · rintro ⟨a, ha, hp⟩
    rcases List.mem_cons.1 ha with h | h
    · subst h
      have hnone : parsesTo "artifacts" = none := by decide
      rw [hnone] at hp
      exact absurd hp (by simp)
    · exact ⟨a, (mem_walkOrder _ _).1 h, hp⟩
  · rintro ⟨a, ha, hp⟩
    exact ⟨a, List.mem_cons_of_mem _ ((mem_walkOrder _ _).2 ha), hp⟩

theorem fileNames_perm (s : Storage) :
    (fileNames s).Perm ((entryNames s).filterMap parsesTo) := by
  unfold fileNames visitedNames
  have h : parsesTo "artifacts" = none := by decide
  rw [List.filterMap_cons_none h]
  exact (List.perm_insertionSort _ _).filterMap _

/-- Claim C1 as stated fails: over the entries `0`, `00` and `1` the names `0`
and `00` both parse to 0, `reserveID` returns 1, and the entry `1` parses to
1. -/
theorem C1_counterexample_leading_zero :
    reserveID (emptyDirs ["0", "00", "1"]) = 1 ∧
      parsesTo "1" = some 1 ∧ "1" ∈ entryNames (emptyDirs ["0", "00", "1"]) ∧
        ¬ SmallestFree (emptyDirs ["0", "00", "1"]) (reserveID (emptyDirs ["0", "00", "1"])) := by
  refine ⟨by decide, by decide, by decide, ?_⟩
  intro h
  exact h.1 "1" (by decide) (by decide)

theorem reserveID_spec (s : Storage)
    (hdistinct : ((entryNames s).filterMap parsesTo).Nodup)
    (hsize : (entryNames s).length < 2 ^ 32) :
    SmallestFree s (reserveID s) := by
  have hperm := fileNames_perm s
  have hnodup : (fileNames s).Nodup := hperm.nodup_iff.2 hdistinct
  have hlen : (fileNames s).length < 2 ^ 32 := by
    rw [hperm.length_eq]
    exact lt_of_le_of_lt (List.length_filterMap_le _ _) hsize
  have hsorted : ((fileNames s).insertionSort (fun a b => a ≤ b)).Sorted (· < ·) :=
    (List.sorted_insertionSort _ _).lt_of_le
      ((List.perm_insertionSort _ _).nodup_iff.2 hnodup)
  have htake : ((fileNames s).insertionSort (fun a b => a ≤ b)).take
      (((fileNames s).insertionSort (fun a b => a ≤ b)).length % 2 ^ 32)
      = (fileNames s).insertionSort (fun a b => a ≤ b) := by
    rw [List.length_insertionSort, Nat.mod_eq_of_lt hlen,
      ← List.length_insertionSort (fun a b => a ≤ b), List.take_length]
  have hspec := countPrefix_spec _ 0 hsorted (fun x _ => Nat.zero_le x)
  have hr : reserveID s = countPrefix ((fileNames s).insertionSort (fun a b => a ≤ b)) 0 := by
    unfold reserveID
    simp only [htake]
  rw [hr]
  constructor
  · intro name hname hp
    apply hspec.2.1
    rw [List.mem_insertionSort, mem_fileNames]
    exact ⟨name, hname, hp⟩
  · intro m hm
    have := hspec.2.2 m (Nat.zero_le m) hm
    rw [List.mem_insertionSort, mem_fileNames] at this
    exact this

/-- Claim C1, amended: when no two entry names under the storage directory
parse to the same number (and there are fewer than 2^32 entries), `reserveID`
returns the smallest number that no entry name parses to. -/
theorem C1_reserveID_smallest_free (s : Storage)
    (hdistinct : ((entryNames s).filterMap parsesTo).Nodup)
    (hsize : (entryNames s).length < 2 ^ 32) :
    SmallestFree s (reserveID s) :=
  reserveID_spec s hdistinct hsize

/-- The amended claim C1 at the inputs the specification names: over the
directories 0, 2, 3 the result is 1, over none it is 0, over 0, 1, 2 it is 3. -/
theorem C1_reserveID_examples :
    (reserveID (emptyDirs ["0", "2", "3"]) = 1 ∧ SmallestFree (emptyDirs ["0", "2", "3"]) 1) ∧
    (reserveID (emptyDirs []) = 0 ∧ SmallestFree (emptyDirs []) 0) ∧
    (reserveID (emptyDirs ["0", "1", "2"]) = 3 ∧ SmallestFree (emptyDirs ["0", "1", "2"]) 3) :=
  ⟨⟨by decide, C1_reserveID_smallest_free (emptyDirs ["0", "2", "3"]) (by decide) (by decide)⟩,
   ⟨by decide, C1_reserveID_smallest_free (emptyDirs []) (by decide) (by decide)⟩,
   ⟨by decide, C1_reserveID_smallest_free (emptyDirs ["0", "1", "2"]) (by decide) (by decide)⟩⟩

/-! ## The index that `setup` rebuilds -/

/-- Claim C2 at a failing input: after a prepare request whose only recipient
is `dev` and the upload of the artifact, the rebuilt index has an entry for
update 0 under the identity `dev_iv` (the name of the IV file of `dev`), which
is no recipient. -/
theorem C2_index_lists_iv_file_as_identity :
    afterPrepare.state.fs =
        [("0", Node.dir [("dev", [1, 2, 3]), ("dev_iv", [9, 9]), ("timestamp_0", PutUint64 0)])] ∧
      afterUpload.panicked = false ∧
      afterUpload.state.pendingUpdates = (setup afterUpload.state.fs).1 ∧
      afterUpload.state.pendingUpdates = [("dev", [⟨0, 0⟩]), ("dev_iv", [⟨0, 0⟩])] ∧
      "dev_iv" ∉ [devKey].map (fun c => c.SAN) := by
  decide

/-- Claim C3 at a failing input: the identity `dev_iv` is no recipient of update
0, yet `getUpdate` answers it 200 with the artifact (its `getDecryptionKey`
answer is 404); an identity unrelated to the stored file names gets 401 and
404. -/
theorem C3_iv_named_identity_is_served :
    "dev_iv" ∉ [devKey].map (fun c => c.SAN) ∧
      getUpdate afterUpload.state (some "0") ["dev_iv"] = ⟨some 200, [Chunk.raw [7, 7, 7]]⟩ ∧
      getDecryptionKey afterUpload.state (some "0") ["dev_iv"] = ⟨some 404, []⟩ ∧
      getUpdate afterUpload.state (some "0") ["other"] = ⟨some 401, []⟩ ∧
      getDecryptionKey afterUpload.state (some "0") ["other"] = ⟨some 404, []⟩ := by
  decide

/-- A further input at which the first half of claim C3 fails: with the
recipients `a` and `a_iv_iv` of update 0, the identity `a_iv` is no recipient,
yet the two files `getDecryptionKey` reads for it exist (the IV file of `a`
and the key file of `a_iv_iv`), and the answer is 200. -/
theorem getDecryptionKey_serves_name_between_recipients :
    "a_iv" ∉ ["a", "a_iv_iv"] ∧
      ReadFile afterUploadForTwo.state.fs "0" "a_iv" = ReadResult.data [9, 9] ∧
      ReadFile afterUploadForTwo.state.fs "0" "a_iv_iv" = ReadResult.data [4, 5, 6] ∧
      (getDecryptionKey afterUploadForTwo.state (some "0") ["a_iv"]).status = some 200 := by
  decide

/-- Claim C4 at a failing input: the request carries `available = 1700000000`,
the handler answers 200 with ID 0, and the timestamp file of update 0 holds the
eight bytes of 0, so that the rebuilt index reports availability time 0. -/
theorem C4_timestamp_file_holds_zero :
    afterPrepare.w = ⟨some 200, [Chunk.text "0"]⟩ ∧
      ReadFile afterPrepare.state.fs "0" "timestamp_0" = ReadResult.data (PutUint64 0) ∧
      PutUint64 (toUint64 1700000000) ≠ PutUint64 0 ∧
      afterUpload.state.pendingUpdates.get "dev" = [⟨0, 0⟩] := by
  decide

/-! ## `whatsNew` -/

/-- Claim C5 as stated fails: an entry whose availability time equals `now` is
left out, and the answer is 204 although the claimed list is `[0]`. -/
theorem C5_counterexample_available_now :
    idsNotAfter [("dev", [⟨0, 100⟩])] "dev" 100 = [0] ∧
      whatsNew [("dev", [⟨0, 100⟩])] ["dev"] 100 = ⟨some 204, []⟩ ∧
        whatsNew [("dev", [⟨0, 100⟩])] ["dev"] 100 ≠
          idsResponse (idsNotAfter [("dev", [⟨0, 100⟩])] "dev" 100) := by
  decide

/-- Claim C5, amended: `whatsNew` returns exactly the update IDs of the
identity's index entries whose availability time is before `now`
(`availableAt < now`), and answers 204 when there is none. -/
theorem C5_whatsNew_ids_before_now (idx : Index) (deviceName : String) (others : List String)
    (now : Int) :
    whatsNew idx (deviceName :: others) now = idsResponse (idsBefore idx deviceName now) := by
  unfold whatsNew idsBefore idsResponse Index.get
  cases hfind : find deviceName idx with
  | none => simp [hfind, ResponseWriter.fresh, ResponseWriter.WriteHeader]
  | some updates =>
    simp only [hfind, Option.getD_some, gt_iff_lt, List.length_eq_zero]
    by_cases h : List.map (fun upd : PendingUpdate => upd.UpdateId)
        (List.filter (fun upd => decide (upd.Timestamp < now)) updates) = []
    · simp [h, ResponseWriter.fresh, ResponseWriter.WriteHeader]
    · simp [h, ResponseWriter.fresh, ResponseWriter.WriteHeader, ResponseWriter.Write]

/-! ## Writes into the tree -/

theorem splitSlash_of_not_mem (cs : List Char) (h : '/' ∉ cs) :
    ∀ acc, splitSlash acc cs = [String.mk (acc.reverse ++ cs)] := by
  induction cs with
  | nil => intro acc; simp [splitSlash]
  | cons c rest ih =>
    intro acc
    have hc : c ≠ '/' := fun hc => h (by rw [hc]; exact List.mem_cons_self _ _)
    have hrest : '/' ∉ rest := fun hr => h (List.mem_cons_of_mem _ hr)
    simp only [splitSlash, hc, if_false]
    rw [ih hrest]
    simp

theorem plainName_facts (n : String) (h : plainName n = true) :
    n ≠ "" ∧ n ≠ "." ∧ n ≠ ".." ∧ '/' ∉ n.data ∧ n.data.contains (Char.ofNat 0) = false := by
  unfold plainName at h
  simp only [Bool.and_eq_true, Bool.not_eq_true', beq_eq_false_iff_ne, ne_eq] at h
  obtain ⟨⟨⟨⟨h1, h2⟩, h3⟩, h4⟩, h5⟩ := h
  refine ⟨?_, ?_, ?_, ?_, h5⟩
  · intro hn
    rw [hn] at h1
    exact absurd h1 (by decide)
  · intro hn
    rw [hn] at h2
    exact h2 rfl
  · intro hn
    rw [hn] at h3
    exact h3 rfl
  · intro hmem
    have : n.data.contains '/' = true := by simp [hmem]
    rw [this] at h4
    exact absurd h4 (by decide)

theorem resolve_plain (s : Storage) (dir name : String) (h : plainName name = true) :
    resolve s dir name = Landing.dirFile dir name := by
  obtain ⟨h1, h2, h3, h4, h5⟩ := plainName_facts name h
  unfold resolve
  rw [h5, splitSlash_of_not_mem _ h4]
  simp only [Bool.false_eq_true, if_false, List.reverse_nil, List.nil_append]
  show finalAt (Place.inDir dir) name = Landing.dirFile dir name
  simp [finalAt, h1, h2, h3]

theorem WriteFile_plain (env : IOEnv) (s : Storage) (dir name : String) (data : Bytes)
    (files : List (String × Bytes)) (hdir : find dir s = some (Node.dir files))
    (hplain : plainName name = true) :
    WriteFile env s dir name data =
      if env.writeOk ("artifacts/" ++ dir ++ "/" ++ name) then
        (put dir (Node.dir (put name data files)) s, true)
      else
        match env.kept ("artifacts/" ++ dir ++ "/" ++ name) with
        | none => (s, false)
        | some n => (put dir (Node.dir (put name (data.take n) files)) s, false) := by
  unfold WriteFile
  simp only [hdir, resolve_plain s dir name hplain, writeAt, hplain, if_true]
  split
  · rfl
  · split <;> rfl

theorem WriteFile_ok (env : IOEnv) (s : Storage) (dir name : String) (data : Bytes)
    (hplain : plainName name = true) (h : (WriteFile env s dir name data).2 = true) :
    ∃ files, find dir s = some (Node.dir files) ∧
      (WriteFile env s dir name data).1 = put dir (Node.dir (put name data files)) s := by
  cases hf : find dir s with
  | none => simp [WriteFile, hf] at h
  | some node =>
    cases node with
    | file d => simp [WriteFile, hf] at h
    | dir files =>
      rw [WriteFile_plain env s dir name data files hf hplain] at h ⊢
      refine ⟨files, rfl, ?_⟩
      split at h
      · rename_i hw
        simp [hw]
      · split at h <;> simp at h

theorem ReadFile_plain (s : Storage) (dir name : String) (files : List (String × Bytes))
    (hdir : find dir s = some (Node.dir files)) (hplain : plainName name = true) :
    ReadFile s dir name =
      match find name files with
      | some b => ReadResult.data b
      | none => ReadResult.notExist := by
  unfold ReadFile
  simp only [hdir, resolve_plain s dir name hplain]

theorem writeAt_isDir (s s1 : Storage) (l : Landing) (data : Bytes) (n : String)
    (hw : writeAt s l data = some s1) (h : IsDir s n) : IsDir s1 n := by
  obtain ⟨fs, hfs⟩ := h
  unfold writeAt at hw
  split at hw
  · rename_i m
    split at hw
    · simp at hw
    · rename_i hnot
      split at hw
      · simp only [Option.some.injEq] at hw
        subst hw
        have hne : n ≠ m := by
          intro heq
          subst heq
          exact hnot fs hfs
        exact ⟨fs, by rw [find_put_ne _ _ _ _ hne]; exact hfs⟩
      · simp at hw
  · rename_i d m
    split at hw
    · split at hw
      · simp only [Option.some.injEq] at hw
        subst hw
        by_cases hn : n = d
        · subst hn
          exact ⟨_, find_put_self _ _ _⟩
        · exact ⟨fs, by rw [find_put_ne _ _ _ _ hn]; exact hfs⟩
      · simp at hw
    · simp at hw
  · simp only [Option.some.injEq] at hw
    subst hw
    exact ⟨fs, hfs⟩
  · simp at hw

theorem WriteFile_isDir (env : IOEnv) (s : Storage) (dir name : String) (data : Bytes)
    (n : String) (h : IsDir s n) : IsDir (WriteFile env s dir name data).1 n := by
  unfold WriteFile
  split
  · simp only
    split
    · split
      · rename_i s1 hw
        exact writeAt_isDir _ _ _ _ _ hw h
      · exact h
    · split
      · exact h
      · rename_i k hk
        cases hw : writeAt s
            (match resolve s dir name with
              | Landing.beyond => env.beyond ("artifacts/" ++ dir ++ "/" ++ name)
              | l => l) (List.take k data) with
        | none => simpa using h
        | some s1 => simpa using writeAt_isDir _ _ _ _ _ hw h
  · exact h

theorem writeKeys_isDir (env : IOEnv) (dir : String) (keys : List DecryptionKeyCiphertext) :
    ∀ (s : Storage) (n : String), IsDir s n → IsDir (writeKeys env dir keys s).1 n := by
  induction keys with
  | nil => intro s n h; simpa [writeKeys] using h
  | cons c rest ih =>
    intro s n h
    have h1 := WriteFile_isDir env s dir c.SAN c.CT n h
    have h2 := WriteFile_isDir env _ dir (c.SAN ++ "_iv") c.IV n h1
    simp only [writeKeys]
    split
    · exact ih _ n h2
    · exact h2

theorem Mkdir_some (env : IOEnv) (s s1 : Storage) (name : String)
    (h : Mkdir env s name = some s1) : find name s = none ∧ IsDir s1 name := by
  unfold Mkdir at h
  cases hf : find name s with
  | some node => simp [hf] at h
  | none =>
    simp only [hf] at h
    split at h
    · simp only [Option.some.injEq] at h
      subst h
      exact ⟨rfl, ⟨[], find_append_new _ _ _ hf⟩⟩
    · simp at h

/-! ## `PrepareUpdateDirectory` -/

theorem PrepareUpdateDirectory_some (env : IOEnv) (s : Storage)
    (keyList : List DecryptionKeyCiphertext) (available : Int) (k : Nat)
    (h : (PrepareUpdateDirectory env s keyList available).2 = some k) :
    k = reserveID s ∧ find (fmtUint k) s = none ∧
      IsDir (PrepareUpdateDirectory env s keyList available).1 (fmtUint k) := by
  unfold PrepareUpdateDirectory at h ⊢
  cases hm : Mkdir env s (fmtUint (reserveID s)) with
  | none => simp [hm] at h
  | some s1 =>
    simp only [hm] at h ⊢
    have hmk := Mkdir_some env s s1 _ hm
    split at h
    · rename_i hw
      simp only [Option.some.injEq] at h
      subst h
      simp only [hw, if_true]
      exact ⟨trivial, hmk.1, WriteFile_isDir _ _ _ _ _ _ (writeKeys_isDir _ _ _ _ _ hmk.2)⟩
    · simp at h

/-- Claim C7: when `PrepareUpdateDirectory` succeeds with ID `k`, no entry for
`k` was under the storage directory before the call and the directory of `k`
is there after it; and from a tree in which the directory of `k` exists, no
successful call returns `k`.  This holds for every key list, also when a
device name leads the writes along a path, and for every outcome of the
writes: a write creates or overwrites a file and never removes a directory. -/
theorem C7_prepared_id_was_free (env : IOEnv) (s : Storage)
    (keyList : List DecryptionKeyCiphertext) (available : Int) (k : Nat)
    (h : (PrepareUpdateDirectory env s keyList available).2 = some k) :
    find (fmtUint k) s = none ∧
      IsDir (PrepareUpdateDirectory env s keyList available).1 (fmtUint k) ∧
      ∀ (env2 : IOEnv) (s2 : Storage) (keyList2 : List DecryptionKeyCiphertext)
        (available2 : Int) (k2 : Nat), IsDir s2 (fmtUint k) →
          (PrepareUpdateDirectory env2 s2 keyList2 available2).2 = some k2 → k2 ≠ k := by
  have h1 := PrepareUpdateDirectory_some env s keyList available k h
  refine ⟨h1.2.1, h1.2.2, ?_⟩
  intro env2 s2 keyList2 available2 k2 hdir h2 hk
  subst hk
  have h3 := PrepareUpdateDirectory_some env2 s2 keyList2 available2 k2 h2
  obtain ⟨files, hfiles⟩ := hdir
  rw [h3.2.1] at hfiles
  exact absurd hfiles (by simp)

/-- The witness of claim C7.  Over the directories 0 and 1, with the device
names `dev` and `./dev2`, the call succeeds with ID 2, which had no entry
before and has its directory afterwards, and a second call on the resulting
tree returns 3.  Over the empty storage directory, with the device name
`../00`, whose files land directly under the storage directory, the call
succeeds with ID 0 and the directory of 0 is there afterwards. -/
theorem C7_prepared_id_was_free_witness :
    (PrepareUpdateDirectory IOEnv.reliable (emptyDirs ["0", "1"])
        [devKey, ⟨"./dev2", [4], [5]⟩] 5).2 = some 2 ∧
      find "2" (emptyDirs ["0", "1"]) = none ∧
      IsDir (PrepareUpdateDirectory IOEnv.reliable (emptyDirs ["0", "1"])
        [devKey, ⟨"./dev2", [4], [5]⟩] 5).1 "2" ∧
      (PrepareUpdateDirectory IOEnv.reliable
        (PrepareUpdateDirectory IOEnv.reliable (emptyDirs ["0", "1"])
          [devKey, ⟨"./dev2", [4], [5]⟩] 5).1 [] 6).2 = some 3 ∧
      PrepareUpdateDirectory IOEnv.reliable [] [⟨"../00", [6], [7]⟩] 5
        = ([("0", Node.dir [("timestamp_0", PutUint64 5)]), ("00", Node.file [6]),
            ("00_iv", Node.file [7])], some 0) ∧
      IsDir (PrepareUpdateDirectory IOEnv.reliable [] [⟨"../00", [6], [7]⟩] 5).1 "0" :=
  ⟨by decide,
   (C7_prepared_id_was_free IOEnv.reliable (emptyDirs ["0", "1"])
      [devKey, ⟨"./dev2", [4], [5]⟩] 5 2 (by decide)).1,
   (C7_prepared_id_was_free IOEnv.reliable (emptyDirs ["0", "1"])
      [devKey, ⟨"./dev2", [4], [5]⟩] 5 2 (by decide)).2.1,
   by decide, by decide,
   (C7_prepared_id_was_free IOEnv.reliable [] [⟨"../00", [6], [7]⟩] 5 0 (by decide)).2.1⟩

/-! ## `uploadArtifact` -/

theorem uploadArtifact_stores (env : IOEnv) (st : ServerState) (p : String) (k : Nat)
    (body : Bytes) (h : Stores env st p k body) :
    ∃ files, find (fmtUint k) st.fs = some (Node.dir files) ∧ plainName (fmtUint k) = true ∧
      (uploadArtifact env st (some p) body).state.fs =
        put (fmtUint k) (Node.dir (put (fmtUint k) body files)) st.fs := by
  obtain ⟨hlen, hatoi, hdir, hnew, hwrite⟩ := h
  have hplain := plainName_fmtUint k
  obtain ⟨files, hfiles, hres⟩ := WriteFile_ok env st.fs _ _ body hplain hwrite
  refine ⟨files, hfiles, hplain, ?_⟩
  rw [Option.map_eq_some'] at hatoi
  obtain ⟨v, hv, hk⟩ := hatoi
  subst hk
  have hlen2 : ¬ p.data.length < 1 := by omega
  have hdir2 : (find (fmtUint (toUint32 v)) st.fs).isNone = false := by
    rw [hfiles]; rfl
  simp only [uploadArtifact, hlen2, if_false, hv, hdir2, hnew, hwrite, Bool.not_true,
    Bool.false_eq_true]
  exact hres

theorem uploadArtifact_turned_down (env : IOEnv) (st : ServerState) (p : String) (k : Nat)
    (body : Bytes) (h : TurnedDown st p k) :
    (uploadArtifact env st (some p) body).state = st := by
  obtain ⟨hatoi, hcase⟩ := h
  rw [Option.map_eq_some'] at hatoi
  obtain ⟨v, hv, hk⟩ := hatoi
  subst hk
  have hcontra : ¬ ((find (fmtUint (toUint32 v)) st.fs).isNone = true) →
      ¬ (fileExists st.fs (fmtUint (toUint32 v)) (fmtUint (toUint32 v)) = true) → False := by
    intro h1 h2
    rcases hcase with hc | hc
    · cases hfind : find (fmtUint (toUint32 v)) st.fs with
      | none => exact h1 (by rw [hfind]; rfl)
      | some node =>
        rw [hfind] at hc
        simp at hc
    · exact h2 hc
  unfold uploadArtifact
  simp only [hv]
  split_ifs with h1 h2 h3 h4
  · rfl
  · rfl
  · rfl
  · exact (hcontra h2 h3).elim
  · exact (hcontra h2 h3).elim

theorem uploadArtifact_exists_body (env : IOEnv) (st : ServerState) (p : String) (k : Nat)
    (body : Bytes) (hp : (Atoi p).map toUint32 = some k)
    (hexists : fileExists st.fs (fmtUint k) (fmtUint k) = true) :
    (uploadArtifact env st (some p) body).w.body = [Chunk.text "File already exists"] := by
  rw [Option.map_eq_some'] at hp
  obtain ⟨v, hv, hk⟩ := hp
  subst hk
  have hlen : ¬ p.data.length < 1 := by
    intro hlt
    have hnil : p.data = [] := List.length_eq_zero.1 (by omega)
    simp [Atoi, hnil] at hv
  have hsome : ¬ ((find (fmtUint (toUint32 v)) st.fs).isNone = true) := by
    intro hnone
    rw [Option.isNone_iff_eq_none] at hnone
    simp [fileExists, hnone] at hexists
  unfold uploadArtifact
  simp only [hv, hlen, hsome, hexists, if_true, if_false]
  rfl

/-- Claim C6: when an upload of `a` for update `k` has been stored, the artifact
file of `k` holds `a`, a further upload for `k` (of any `b`) is turned down
with the text `File already exists`, leaves the state as it is, and the file
still holds `a`; and every upload that is turned down, for an unknown ID or
one that has its artifact, leaves the state as it is. -/
theorem C6_turned_down_upload_keeps_tree (env env2 : IOEnv) (st : ServerState)
    (p p2 : String) (k : Nat) (a b : Bytes) (hstored : Stores env st p k a)
    (hp2 : (Atoi p2).map toUint32 = some k) :
    ReadFile (uploadArtifact env st (some p) a).state.fs (fmtUint k) (fmtUint k)
        = ReadResult.data a ∧
      TurnedDown (uploadArtifact env st (some p) a).state p2 k ∧
      (uploadArtifact env2 (uploadArtifact env st (some p) a).state (some p2) b).state
        = (uploadArtifact env st (some p) a).state ∧
      ReadFile (uploadArtifact env2 (uploadArtifact env st (some p) a).state (some p2) b).state.fs
        (fmtUint k) (fmtUint k) = ReadResult.data a ∧
      (uploadArtifact env2 (uploadArtifact env st (some p) a).state (some p2) b).w.body
        = [Chunk.text "File already exists"] ∧
      ∀ (env3 : IOEnv) (st3 : ServerState) (p3 : String) (k3 : Nat) (body : Bytes),
        TurnedDown st3 p3 k3 → (uploadArtifact env3 st3 (some p3) body).state = st3 := by
  obtain ⟨files, hfiles, hplain, hfs⟩ := uploadArtifact_stores env st p k a hstored
  have hread : ReadFile (uploadArtifact env st (some p) a).state.fs (fmtUint k) (fmtUint k)
      = ReadResult.data a := by
    rw [hfs, ReadFile_plain _ _ _ _ (find_put_self _ _ _) hplain, find_put_self]
  have hexists : fileExists (uploadArtifact env st (some p) a).state.fs (fmtUint k) (fmtUint k)
      = true := by
    rw [hfs]
    simp [fileExists, find_put_self]
  have hdown : TurnedDown (uploadArtifact env st (some p) a).state p2 k := ⟨hp2, Or.inr hexists⟩
  have hsame := uploadArtifact_turned_down env2 _ p2 k b hdown
  refine ⟨hread, hdown, hsame, ?_, ?_, ?_⟩
  · rw [hsame]; exact hread
  · exact uploadArtifact_exists_body env2 _ p2 k b hp2 hexists
  · intro env3 st3 p3 k3 body h3
    exact uploadArtifact_turned_down env3 st3 p3 k3 body h3

/-- The witness of claim C6: after the prepare request and the upload of
`[7, 7, 7]` for update 0, the upload of `[8]` is turned down and the artifact
file still holds `[7, 7, 7]`. -/
theorem C6_turned_down_upload_keeps_tree_witness :
    Stores IOEnv.reliable afterPrepare.state "0" 0 [7, 7, 7] ∧
      (Atoi "0").map toUint32 = some 0 ∧
      afterSecondUpload.state = afterUpload.state ∧
      ReadFile afterSecondUpload.state.fs "0" "0" = ReadResult.data [7, 7, 7] ∧
      afterSecondUpload.w.body = [Chunk.text "File already exists"] :=
  ⟨by unfold Stores; decide, by decide,
   (C6_turned_down_upload_keeps_tree IOEnv.reliable IOEnv.reliable afterPrepare.state "0" "0" 0
      [7, 7, 7] [8] (by unfold Stores; decide) (by decide)).2.2.1,
   (C6_turned_down_upload_keeps_tree IOEnv.reliable IOEnv.reliable afterPrepare.state "0" "0" 0
      [7, 7, 7] [8] (by unfold Stores; decide) (by decide)).2.2.2.1,
   (C6_turned_down_upload_keeps_tree IOEnv.reliable IOEnv.reliable afterPrepare.state "0" "0" 0
      [7, 7, 7] [8] (by unfold Stores; decide) (by decide)).2.2.2.2.1⟩

theorem uploadArtifact_status_ne_204 (env : IOEnv) (st : ServerState) (param : Option String)
    (body : Bytes) : (uploadArtifact env st param body).w.statusCode ≠ 204 := by
  unfold uploadArtifact
  cases param with
  | none =>
    simp [ResponseWriter.statusCode, ResponseWriter.fresh, ResponseWriter.WriteHeader]
  | some p =>
    simp only
    split_ifs with h1
    · simp [ResponseWriter.statusCode, ResponseWriter.fresh, ResponseWriter.WriteHeader]
    · cases Atoi p with
      | none =>
        simp [ResponseWriter.statusCode, ResponseWriter.fresh, ResponseWriter.WriteHeader]
      | some v =>
        simp only
        split_ifs <;>
          simp [ResponseWriter.statusCode, ResponseWriter.fresh, ResponseWriter.WriteHeader,
            ResponseWriter.Write]

/-- Claim C8 at its failing inputs, and in general: no answer of
`uploadArtifact` has status 204, so the client's `UploadArtifact` reports an
error for every request the server answers.  In the sample run the upload for
the prepared update 0 is stored and answered 200, the client reports an error,
and the second upload is answered 200 with the text `File already exists`. -/
theorem C8_upload_never_answers_204 :
    (∀ (env : IOEnv) (st : ServerState) (param : Option String) (body : Bytes),
        (uploadArtifact env st param body).w.statusCode ≠ 204) ∧
      (∀ (env : IOEnv) (st : ServerState) (artifact : Option Bytes) (updateId : Nat),
        UploadArtifact artifact (fun p b => (uploadArtifact env st (some p) b).answer) updateId
          = false) ∧
      ReadFile afterUpload.state.fs "0" "0" = ReadResult.data [7, 7, 7] ∧
      afterUpload.panicked = false ∧ afterUpload.w.statusCode = 200 ∧
      UploadArtifact (some [7, 7, 7])
        (fun p b => (uploadArtifact IOEnv.reliable afterPrepare.state (some p) b).answer) 0
          = false ∧
      afterSecondUpload.w.statusCode = 200 ∧
      afterSecondUpload.w.body = [Chunk.text "File already exists"] ∧
      (uploadArtifact IOEnv.reliable afterPrepare.state (some "5") [7]).w.statusCode = 400 := by
  refine ⟨uploadArtifact_status_ne_204, ?_, by decide, by decide, by decide, by decide,
    by decide, by decide, by decide⟩
  intro env st artifact updateId
  unfold UploadArtifact
  cases artifact with
  | none => rfl
  | some bytes =>
    simp only
    cases hans : (uploadArtifact env st (some (fmtUint updateId)) bytes).answer with
    | none => rfl
    | some code =>
      simp only
      have hne : code ≠ 204 := by
        unfold Handled.answer at hans
        split_ifs at hans
        simp only [Option.some.injEq] at hans
        rw [← hans]
        exact uploadArtifact_status_ne_204 env st _ bytes
      simp [hne]

/-! ## Errors of the writes in `PrepareUpdateDirectory` -/

/-- Claim C9 at failing inputs: with the one device `dev`, when the write of
the wrapped-key file `artifacts/0/dev` fails and the others succeed, the call
returns ID 0 without error and the key file is missing; the same when only
the write of the timestamp file fails; and for a device whose name is empty
the key file cannot be written, yet the call returns ID 0. -/
theorem C9_failed_write_is_not_reported :
    (WriteFile keyWriteFails (emptyDirs ["0"]) "0" "dev" [1, 2, 3]).2 = false ∧
      (PrepareUpdateDirectory keyWriteFails [] [devKey] 5).2 = some 0 ∧
      ReadFile (PrepareUpdateDirectory keyWriteFails [] [devKey] 5).1 "0" "dev"
        = ReadResult.notExist ∧
      (PrepareUpdateDirectory timestampWriteFails [] [devKey] 5).2 = some 0 ∧
      ReadFile (PrepareUpdateDirectory timestampWriteFails [] [devKey] 5).1 "0" "timestamp_0"
        = ReadResult.notExist ∧
      (WriteFile IOEnv.reliable (emptyDirs ["0"]) "0" "" [1, 2, 3]).2 = false ∧
      (PrepareUpdateDirectory IOEnv.reliable [] [⟨"", [1, 2, 3], [9, 9]⟩] 5).2 = some 0 := by
  decide

/-! ## The publisher's `main` -/

/-- Claim C10 at failing inputs, and in general: whatever the prepare request
gives, `main` goes on to call `UploadArtifact` with the ID returned.  When the
round trip fails, and when the body is empty or not a number,
`SendPrepareUpdateMessage` returns an error and the upload is called with
ID 0. -/
theorem C10_upload_follows_failed_prepare :
    (∀ (keys : List DecryptionKeyCiphertext) (a : Int) (resp : Option (Option String)),
        Call.upload (SendPrepareUpdateMessage resp).1 ∈
          publisherMain true true (some keys) (some a) resp) ∧
      (SendPrepareUpdateMessage none).2 = false ∧
      publisherMain true true (some [devKey]) (some 5) none
        = [Call.prepare [devKey] 5, Call.upload 0, Call.saveCiphertexts] ∧
      (SendPrepareUpdateMessage (some (some ""))).2 = false ∧
      Call.upload 0 ∈ publisherMain true true (some [devKey]) (some 5) (some (some "")) ∧
      (SendPrepareUpdateMessage (some (some "busy"))).2 = false ∧
      Call.upload 0 ∈ publisherMain true true (some [devKey]) (some 5) (some (some "busy")) := by
  refine ⟨?_, by decide, by decide, by decide, by decide, by decide, by decide⟩
  intro keys a resp
  simp [publisherMain]

/-! ## Device names that are paths -/

/-- A device name is appended to the path of the update directory as it is.
After the upload of `[7, 7, 7]` for update 0, a `prepareUpdate` request with
the device name `../0/0` is answered with the new ID 1, and its key bytes have
replaced the artifact of update 0. -/
theorem device_name_path_overwrites_artifact :
    ReadFile afterUpload.state.fs "0" "0" = ReadResult.data [7, 7, 7] ∧
      (PrepareUpdate IOEnv.reliable afterUpload.state
        (some ⟨[⟨"../0/0", [1], [2]⟩], 0⟩)).w = ⟨some 200, [Chunk.text "1"]⟩ ∧
      ReadFile (PrepareUpdate IOEnv.reliable afterUpload.state
        (some ⟨[⟨"../0/0", [1], [2]⟩], 0⟩)).state.fs "0" "0" = ReadResult.data [1] := by
  decide

/-- With the device name `../00` the files of a device land directly under the
storage directory: the entries are then `0`, `00` and `00_iv`, of which `0` and
`00` parse to the same number. -/
theorem device_name_path_adds_entry :
    entryNames (PrepareUpdateDirectory IOEnv.reliable [] [⟨"../00", [6], [7]⟩] 5).1
        = ["0", "00", "00_iv"] ∧
      parsesTo "0" = some 0 ∧ parsesTo "00" = some 0 := by
  decide

/-! ## The timestamp that `PrepareUpdate` stores -/

theorem WriteFile_read (env : IOEnv) (s : Storage) (dir name : String) (data : Bytes)
    (hdir : IsDir s dir) (hplain : plainName name = true)
    (hok : env.writeOk ("artifacts/" ++ dir ++ "/" ++ name) = true) :
    ReadFile (WriteFile env s dir name data).1 dir name = ReadResult.data data := by
  obtain ⟨files, hfiles⟩ := hdir
  rw [WriteFile_plain env s dir name data files hfiles hplain]
  simp only [hok, if_true]
  rw [ReadFile_plain _ _ _ _ (find_put_self _ _ _) hplain, find_put_self]

/-- Whatever `available` a `prepareUpdate` request carries, when the handler
answers 200 (and the write of the timestamp file is not failed from outside)
the timestamp file of the new update holds the eight bytes of 0. -/
theorem PrepareUpdate_stores_zero (env : IOEnv) (st : ServerState) (dat : PrepareUpdateData)
    (hall : ∀ p, env.writeOk p = true)
    (hok : (PrepareUpdate env st (some dat)).w.statusCode = 200) :
    ∃ k, (PrepareUpdate env st (some dat)).w.body = [Chunk.text (fmtUint k)] ∧
      ReadFile (PrepareUpdate env st (some dat)).state.fs (fmtUint k) ("timestamp_" ++ fmtUint k)
        = ReadResult.data (PutUint64 0) := by
  unfold PrepareUpdate at hok ⊢
  simp only at hok ⊢
  cases hr : (PrepareUpdateDirectory env st.fs dat.Keys 0).2 with
  | none =>
    simp [hr, ResponseWriter.statusCode, ResponseWriter.fresh, ResponseWriter.WriteHeader] at hok
  | some newId =>
    simp only [hr]
    refine ⟨newId, rfl, ?_⟩
    have hid := (PrepareUpdateDirectory_some env st.fs dat.Keys 0 newId hr).1
    subst hid
    unfold PrepareUpdateDirectory at hr ⊢
    cases hm : Mkdir env st.fs (fmtUint (reserveID st.fs)) with
    | none => simp [hm] at hr
    | some s1 =>
      simp only [hm] at hr ⊢
      have hmk := Mkdir_some env st.fs s1 _ hm
      split_ifs at hr ⊢ with hw
      · exact WriteFile_read env _ _ _ _ (writeKeys_isDir _ _ _ _ _ hmk.2)
          (plainName_timestamp _) (hall _)

/-- The statement `PrepareUpdate_stores_zero` at the sample request, which
carries `available = 1700000000`. -/
theorem PrepareUpdate_stores_zero_witness :
    afterPrepare.w.statusCode = 200 ∧
      ∃ k, afterPrepare.w.body = [Chunk.text (fmtUint k)] ∧
        ReadFile afterPrepare.state.fs (fmtUint k) ("timestamp_" ++ fmtUint k)
          = ReadResult.data (PutUint64 0) :=
  ⟨by decide,
   PrepareUpdate_stores_zero IOEnv.reliable freshServer ⟨[devKey], 1700000000⟩
     (fun _ => rfl) (by decide)⟩

/-! ## `CreateArtifact` -/

theorem Uint16_PutUint16 (u : Nat) (h : u < 2 ^ 16) : Uint16 (PutUint16 u) = some u := by
  unfold Uint16 PutUint16
  simp only [Option.some.injEq]
  omega

theorem CreateArtifact_header (env : ArtifactEnv) (sequenceNumber : Nat) (hardwareUUID : Bytes)
    (fwImagePath : String) (URI : Bytes) (sigKeyPath : String) (art : UpdateArtifact)
    (h : (CreateArtifact env sequenceNumber hardwareUUID fwImagePath URI sigKeyPath).1
      = some art) :
    art.Header.URILength = PutUint16 (toUint16 URI.length) ∧ art.Header.URIData = URI := by
  unfold CreateArtifact at h
  split_ifs at h with h1 h2 h3
  · subst h3
    simp only at h
    split at h
    · simp at h
    · split at h
      · simp at h
      · split at h <;>
          (simp only [Option.some.injEq] at h
           subst h
           exact ⟨rfl, rfl⟩)
  · simp only at h
    split at h
    · simp at h
    · split at h
      · simp at h
      · split at h <;>
          (simp only [Option.some.injEq] at h
           subst h
           exact ⟨rfl, rfl⟩)

theorem CreateArtifact_longURI :
    CreateArtifact sampleArtifactEnv 7 [0, 1] "fw.img" longURI "key.pem"
      = (some ⟨⟨PutUint64 7, [0, 1], PutUint16 (toUint16 longURI.length), longURI,
          copyInto 256 [6, 6]⟩, "fw.img"⟩, true) := by
  have hlen : longURI.length = 65536 := List.length_replicate _ _
  have hne : longURI ≠ [] := by
    intro h
    rw [h] at hlen
    exact absurd hlen (by decide)
  simp [CreateArtifact, hne, sampleArtifactEnv, UpdateHeader.CalcSHA256ArtifactDigest]

/-- Claim C11 as stated fails: for a URI of 65536 bytes `CreateArtifact`
returns an artifact whose length field reads 0 while its URI data has 65536
bytes. -/
theorem C11_counterexample_long_uri :
    ∃ art, (CreateArtifact sampleArtifactEnv 7 [0, 1] "fw.img" longURI "key.pem")
        = (some art, true) ∧
      Uint16 art.Header.URILength = some 0 ∧ art.Header.URIData.length = 65536 ∧
      ¬ art.Header.LengthMatches := by
  have hlen : longURI.length = 65536 := List.length_replicate _ _
  refine ⟨⟨⟨PutUint64 7, [0, 1], PutUint16 (toUint16 longURI.length), longURI,
    copyInto 256 [6, 6]⟩, "fw.img"⟩, CreateArtifact_longURI, ?_, ?_, ?_⟩
  · simp only [hlen]
    decide
  · exact hlen
  · unfold UpdateHeader.LengthMatches
    simp only [hlen]
    decide

/-- Claim C11, amended: the header of the artifact that `CreateArtifact`
returns has, for every URI of fewer than 65536 bytes, a length field which,
read as a 16-bit little-endian number, is the number of bytes of its URI data;
and, for every URI, its URI data is empty exactly when the URI is empty. -/
theorem C11_length_field_matches (env : ArtifactEnv) (sequenceNumber : Nat)
    (hardwareUUID : Bytes) (fwImagePath : String) (URI : Bytes) (sigKeyPath : String)
    (art : UpdateArtifact)
    (h : (CreateArtifact env sequenceNumber hardwareUUID fwImagePath URI sigKeyPath).1
      = some art) :
    (URI.length < 2 ^ 16 → art.Header.LengthMatches) ∧
      (art.Header.URIData = [] ↔ URI = []) := by
  obtain ⟨hl, hd⟩ := CreateArtifact_header env sequenceNumber hardwareUUID fwImagePath URI
    sigKeyPath art h
  refine ⟨?_, by rw [hd]⟩
  intro hlen
  unfold UpdateHeader.LengthMatches
  rw [hl, hd]
  unfold toUint16
  rw [Nat.mod_eq_of_lt hlen]
  exact Uint16_PutUint16 _ hlen

/-- The witness of claim C11: for the two-byte URI `hi` the call returns an
artifact whose length field is `[2, 0]` and whose URI data is `hi`, not empty;
for the empty URI the URI data of the artifact returned is empty; for the URI
of 65536 bytes it is not empty. -/
theorem C11_length_field_matches_witness :
    (CreateArtifact sampleArtifactEnv 7 [0, 1] "fw.img" [104, 105] "key.pem").1
        = some ⟨⟨PutUint64 7, [0, 1], [2, 0], [104, 105], copyInto 256 [6, 6]⟩, "fw.img"⟩ ∧
      UpdateHeader.LengthMatches ⟨PutUint64 7, [0, 1], [2, 0], [104, 105], copyInto 256 [6, 6]⟩ ∧
      (⟨PutUint64 7, [0, 1], [2, 0], [104, 105], copyInto 256 [6, 6]⟩ : UpdateHeader).URIData
        ≠ [] ∧
      (CreateArtifact sampleArtifactEnv 7 [0, 1] "fw.img" [] "key.pem").1
        = some ⟨⟨PutUint64 7, [0, 1], [0, 0], [], copyInto 256 [6, 6]⟩, "fw.img"⟩ ∧
      (⟨PutUint64 7, [0, 1], [0, 0], [], copyInto 256 [6, 6]⟩ : UpdateHeader).URIData = [] ∧
      (⟨PutUint64 7, [0, 1], PutUint16 (toUint16 longURI.length), longURI,
        copyInto 256 [6, 6]⟩ : UpdateHeader).URIData ≠ [] :=
  ⟨rfl,
   (C11_length_field_matches sampleArtifactEnv 7 [0, 1] "fw.img" [104, 105] "key.pem"
      ⟨⟨PutUint64 7, [0, 1], [2, 0], [104, 105], copyInto 256 [6, 6]⟩, "fw.img"⟩ rfl).1
      (by decide),
   fun h => absurd
     ((C11_length_field_matches sampleArtifactEnv 7 [0, 1] "fw.img" [104, 105] "key.pem"
        ⟨⟨PutUint64 7, [0, 1], [2, 0], [104, 105], copyInto 256 [6, 6]⟩, "fw.img"⟩ rfl).2.1 h)
     (by decide),
   rfl,
   (C11_length_field_matches sampleArtifactEnv 7 [0, 1] "fw.img" [] "key.pem"
      ⟨⟨PutUint64 7, [0, 1], [0, 0], [], copyInto 256 [6, 6]⟩, "fw.img"⟩ rfl).2.2 rfl,
   fun h => absurd
     (congrArg List.length
       ((C11_length_field_matches sampleArtifactEnv 7 [0, 1] "fw.img" longURI "key.pem"
          ⟨⟨PutUint64 7, [0, 1], PutUint16 (toUint16 longURI.length), longURI,
            copyInto 256 [6, 6]⟩, "fw.img"⟩ (by rw [CreateArtifact_longURI])).2.1 h))
     (by rw [longURI, List.length_replicate]; decide)⟩

/-! ## `EncryptAndSerialize` -/

/-- Claim C12 at failing inputs, and in general: once the three writes are
reached, the error returned is that of the last write, the key file, alone.
When only the write of the ciphertext file fails, or only that of the nonce
file, the call returns no error and the file is not among those written. -/
theorem C12_only_last_write_is_reported :
    (∀ (env : ArtifactEnv) (io : IOEnv) (artifact : UpdateArtifact)
        (AESKeyPath outDirPath : String) (c n k : Bytes),
        EncryptArtifact env AESKeyPath artifact = some (c, n, k) →
          (artifact.EncryptAndSerialize env io true AESKeyPath outDirPath).ok
            = io.writeOk (outDirPath ++ "/key")) ∧
      artifactWriteFails.writeOk "out/artifact.upd" = false ∧
      (sampleArtifact.EncryptAndSerialize sampleArtifactEnv artifactWriteFails true "" "out").ok
        = true ∧
      (sampleArtifact.EncryptAndSerialize sampleArtifactEnv artifactWriteFails true "" "out").written
        = [("out/iv", [2, 2]), ("out/key", [1, 1])] ∧
      ivWriteFails.writeOk "out/iv" = false ∧
      (sampleArtifact.EncryptAndSerialize sampleArtifactEnv ivWriteFails true "" "out").ok
        = true ∧
      (sampleArtifact.EncryptAndSerialize sampleArtifactEnv ivWriteFails true "" "out").written
        = [("out/artifact.upd", [5, 1, 2, 3, 0, 4, 4, 4, 1, 2, 3]), ("out/key", [1, 1])] ∧
      (sampleArtifact.EncryptAndSerialize sampleArtifactEnv outKeyWriteFails true "" "out").ok
        = false := by
  refine ⟨?_, by decide, by decide, by decide, by decide, by decide, by decide, by decide⟩
  intro env io artifact AESKeyPath outDirPath c n k h
  unfold UpdateArtifact.EncryptAndSerialize
  simp [h]

end EmbeddedLinuxUpdates
